import Mathlib

/-!
Verification of the termai command-execution core against its specification.

The Python modules `safety.py`, `allowlist.py`, `executor.py` and
`orchestrator.py` are shallowly embedded below: pure functions become Lean
functions, module-level mutable state becomes explicit state passing, child
processes and the audit log become an explicit effect record, and the user's
terminal input becomes an explicit input stream.  Exceptions are modelled
with `Except`.
-/

namespace Termai

/-! ## Character helpers (ASCII fragment of the Python string operations) -/

/-- Python whitespace characters recognised by str.strip and the regex
class for whitespace (ASCII fragment; all commands considered are ASCII). -/
def isPySpace (c : Char) : Bool :=
  c = ' ' ∨ c = '\t' ∨ c = '\n' ∨ c = '\r' ∨ c = Char.ofNat 11 ∨ c = Char.ofNat 12

/-- Regex word character (ASCII fragment): letters, digits, underscore. -/
def isWordChar (c : Char) : Bool :=
  (('a' ≤ c ∧ c ≤ 'z') ∨ ('A' ≤ c ∧ c ≤ 'Z') ∨ ('0' ≤ c ∧ c ≤ '9') ∨ c = '_')

/-- ASCII lower-casing of one character (Python str.lower on ASCII input). -/
def asciiLower (c : Char) : Char :=
  if 'A' ≤ c ∧ c ≤ 'Z' then Char.ofNat (c.toNat + 32) else c

/-- Python str.strip(): drop leading and trailing whitespace. -/
def pyStrip (s : List Char) : List Char :=
  ((s.dropWhile isPySpace).reverse.dropWhile isPySpace).reverse

/-- str.strip() on a String, returning a String. -/
def pyStripS (s : String) : String :=
  String.mk (pyStrip s.data)

/-- str.strip().lower() composed, as used on interactive answers. -/
def pyStripLower (s : String) : String :=
  String.mk ((pyStrip s.data).map asciiLower)

/-! ## A small regular-expression engine

Just enough of Python `re` semantics for the rule table of `safety.py`:
literals, character classes, concatenation, alternation, Kleene star,
word boundaries, and the end anchor.  Case-insensitive matching (re.I) is
obtained by matching the lower-cased command against patterns whose
literals are written in lower case.  The matcher is a backtracking
enumerator of all (last-consumed-char, remaining-suffix) pairs; a fuel
argument makes the recursion structural, and the fuel supplied by
`reSearch` strictly dominates the maximal backtracking depth (every star
iteration must consume at least one character, and between consumptions
the pattern strictly shrinks). -/

inductive RE : Type
  | eps : RE
  | ch (c : Char) : RE
  | cls (p : Char → Bool) : RE
  | seq (a b : RE) : RE
  | alt (a b : RE) : RE
  | star (a : RE) : RE
  | wb : RE
  | eos : RE

/-- Structural size of a pattern, used only to compute a sufficient fuel. -/
def reSize : RE → Nat
  | .eps => 1
  | .ch _ => 1
  | .cls _ => 1
  | .seq a b => 1 + reSize a + reSize b
  | .alt a b => 1 + reSize a + reSize b
  | .star a => 1 + reSize a
  | .wb => 1
  | .eos => 1

/-- A word boundary holds between the previously consumed character and the
head of the remaining input (string edges count as non-word). -/
def wordBoundary (prev : Option Char) (s : List Char) : Bool :=
  let pw := match prev with | none => false | some c => isWordChar c
  let nw := match s with | [] => false | c :: _ => isWordChar c
  pw ≠ nw

/-- All ways a pattern can match a prefix of the input.  Each result is the
last consumed character (for word boundaries) and the unconsumed suffix. -/
def reMatches : Nat → RE → Option Char → List Char → List (Option Char × List Char)
  | 0, _, _, _ => []
  | _ + 1, .eps, prev, s => [(prev, s)]
  | _ + 1, .ch _, _, [] => []
  | _ + 1, .ch c, _, a :: s => if a = c then [(some a, s)] else []
  | _ + 1, .cls _, _, [] => []
  | _ + 1, .cls p, _, a :: s => if p a then [(some a, s)] else []
  | fuel + 1, .seq r1 r2, prev, s =>
      (reMatches fuel r1 prev s).flatMap (fun pr => reMatches fuel r2 pr.1 pr.2)
  | fuel + 1, .alt r1 r2, prev, s =>
      reMatches fuel r1 prev s ++ reMatches fuel r2 prev s
  | fuel + 1, .star r, prev, s =>
      (prev, s) :: (reMatches fuel r prev s).flatMap
        (fun pr => if pr.2.length < s.length then reMatches fuel (.star r) pr.1 pr.2 else [])
  | _ + 1, .wb, prev, s => if wordBoundary prev s then [(prev, s)] else []
  | _ + 1, .eos, prev, s => if s = [] ∨ s = ['\n'] then [(prev, s)] else []

/-- Fuel that dominates the recursion depth of `reMatches` on this input:
at most `len` star iterations (each consumes a character), and between two
consumptions at most `reSize re` structural descents. -/
def reFuel (re : RE) (s : List Char) : Nat :=
  (reSize re + 2) * (s.length + 2)

/-- Python re.search: try to match at every start position. -/
def reSearchAux (re : RE) (prev : Option Char) (s : List Char) : Bool :=
  (!(reMatches (reFuel re s) re prev s).isEmpty) ||
    (match s with
     | [] => false
     | c :: rest => reSearchAux re (some c) rest)

def reSearch (re : RE) (s : List Char) : Bool :=
  reSearchAux re none s

/-! ### Pattern construction helpers -/

/-- Literal string pattern. -/
def rlit (s : String) : RE :=
  s.data.foldr (fun c r => RE.seq (RE.ch c) r) RE.eps

def rcat (l : List RE) : RE := l.foldr RE.seq RE.eps

def rplus (r : RE) : RE := RE.seq r (RE.star r)

def ropt (r : RE) : RE := RE.alt r RE.eps

/-- Whitespace class, regex s. -/
def rws : RE := RE.cls isPySpace

/-- One or more whitespace characters. -/
def rwsP : RE := rplus rws

/-- Zero or more whitespace characters. -/
def rwsS : RE := RE.star rws

/-- Word-character class, regex w. -/
def rwd : RE := RE.cls isWordChar

/-- The dot: any character except newline. -/
def rany : RE := RE.cls (fun c => !(c = '\n'))

/-- Dot-star: any run of non-newline characters. -/
def ranyS : RE := RE.star rany

/-- The opening-brace character, written numerically. -/
def lbraceC : Char := Char.ofNat 123

/-- The closing-brace character, written numerically. -/
def rbraceC : Char := Char.ofNat 125

/-- The single-quote character. -/
def squoteC : Char := Char.ofNat 39

/-- The double-quote character. -/
def dquoteC : Char := Char.ofNat 34

/-! ## safety.py — the rule table and check_command

Each rule of `_RULES` is (pattern, severity, reason), translated from the
regular expressions of safety.py.  All rules there carry re.I, so the
pattern literals are written lower-case here and `check_command` matches
them against the lower-cased command. -/

structure SafetyWarning where
  severity : String
  reason : String
deriving DecidableEq, Repr

def _RULES : List (RE × String × String) := [
  -- rm with -r and -f ending at the filesystem root
  (RE.alt
     (rcat [RE.wb, rlit "rm", rwsP,
            RE.star (rcat [rlit "-", RE.star rwd, rlit "f", RE.star rwd, rwsP]),
            rlit "-", RE.star rwd, rlit "r", RE.star rwd, rwsP, rlit "/", rwsS, RE.eos])
     (rcat [RE.wb, rlit "rm", rwsP,
            RE.star (rcat [rlit "-", RE.star rwd, rlit "r", RE.star rwd, rwsP]),
            rlit "-", RE.star rwd, rlit "f", RE.star rwd, rwsP, rlit "/", rwsS, RE.eos]),
   "critical", "Recursive delete from root — will destroy your system"),
  (RE.alt (rcat [RE.wb, rlit "rm", rwsP, ranyS, rlit "-r", ranyS, rlit "-f"])
     (RE.alt (rcat [RE.wb, rlit "rm", rwsP, ranyS, rlit "-f", ranyS, rlit "-r"])
        (rcat [RE.wb, rlit "rm", rwsP, rlit "-rf", RE.wb])),
   "high", "Recursive forced delete"),
  (rcat [RE.wb, rlit "rm", rwsP, ranyS, rlit "-r", RE.wb],
   "high", "Recursive delete"),
  (rcat [RE.wb, rlit "rm", rws],
   "medium", "File deletion"),
  (rcat [RE.wb, rlit "rmdir", RE.wb],
   "medium", "Directory removal"),
  (rcat [RE.wb, rlit "find", RE.wb, ranyS, rlit "-delete", RE.wb],
   "high", "Bulk file deletion via find"),
  (rcat [RE.wb, rlit "find", RE.wb, ranyS, rlit "-exec", rwsP, rlit "rm", RE.wb],
   "high", "Bulk file deletion via find -exec"),
  (rcat [RE.wb, rlit "xargs", rwsP, rlit "rm", RE.wb],
   "high", "Piped mass file deletion"),
  (rcat [RE.wb, rlit "mkfs", RE.wb],
   "critical", "Filesystem format — will erase a disk"),
  (rcat [RE.wb, rlit "dd", rws],
   "critical", "Low-level disk write"),
  (RE.alt (rcat [rlit ">", rwsS, rlit "/dev/sd"])
     (RE.alt (rcat [rlit ">", rwsS, rlit "/dev/nvm"])
        (rcat [rlit ">", rwsS, rlit "/dev/disk"])),
   "critical", "Direct write to block device"),
  (rcat [RE.wb, rlit "fdisk", RE.wb],
   "critical", "Disk partitioning"),
  (rcat [RE.wb, rlit "parted", RE.wb],
   "critical", "Disk partitioning"),
  (rcat [RE.wb, rlit "wipefs", RE.wb],
   "critical", "Wiping filesystem signatures"),
  (rcat [RE.wb, rlit "diskutil", rwsP,
         RE.alt (rlit "erase") (RE.alt (rlit "partitiondisk") (rlit "erasedisk")), RE.wb],
   "critical", "macOS disk operation — data loss"),
  (rcat [rlit "cat", rwsP, rlit "/dev/", RE.alt (rlit "urandom") (rlit "zero"), rwsS, rlit ">"],
   "critical", "Overwriting with random/zero data"),
  (rcat [RE.wb, rlit "chmod", rwsP, rlit "-r", rwsP, ropt (RE.ch '0'), rlit "777", RE.wb],
   "high", "Recursive world-writable permissions"),
  (rcat [RE.wb, rlit "chmod", rwsP, ropt (RE.ch '0'), rlit "777", RE.wb],
   "medium", "World-writable permissions"),
  (rcat [RE.wb, rlit "chmod", rwsP, ropt (rcat [rlit "-r", rwsP]), ropt (RE.ch '0'), rlit "000", RE.wb],
   "high", "Removing all file permissions"),
  (rcat [RE.wb, rlit "chown", rwsP, rlit "-r", RE.wb],
   "medium", "Recursive ownership change"),
  (rcat [RE.wb, rlit "shutdown", RE.wb],
   "high", "System shutdown"),
  (rcat [RE.wb, rlit "reboot", RE.wb],
   "high", "System reboot"),
  (rcat [RE.wb, rlit "poweroff", RE.wb],
   "high", "System poweroff"),
  (rcat [RE.wb, rlit "init", rwsP, rlit "0", RE.wb],
   "high", "System halt"),
  (rcat [RE.wb, rlit "halt", RE.wb],
   "high", "System halt"),
  (rcat [RE.wb, rlit "systemctl", rwsP,
         RE.alt (rlit "stop") (RE.alt (rlit "disable") (rlit "mask")), RE.wb],
   "medium", "Stopping/disabling a system service"),
  (rcat [RE.wb, rlit "launchctl", rwsP, RE.alt (rlit "unload") (rlit "remove"), RE.wb],
   "medium", "Removing a macOS service"),
  (rcat [RE.wb, rlit "kill", rwsP, rlit "-9", RE.wb],
   "medium", "Force-killing a process"),
  (rcat [RE.wb, rlit "killall", RE.wb],
   "medium", "Killing processes by name"),
  (rcat [RE.wb, rlit "pkill", RE.wb],
   "medium", "Killing processes by pattern"),
  (rcat [RE.wb, rlit "sudo", RE.wb],
   "medium", "Running with elevated privileges (sudo)"),
  (rcat [RE.wb, rlit "mv", rwsP, rlit "/", rws],
   "high", "Moving from root filesystem"),
  (rcat [rlit ">", rwsS, rlit "/etc/"],
   "high", "Overwriting system config"),
  (rcat [RE.wb, rlit "truncate", RE.wb],
   "medium", "Truncating a file"),
  (rcat [RE.wb, rlit "shred", RE.wb],
   "high", "Securely erasing a file (unrecoverable)"),
  (rcat [RE.wb, rlit "curl", RE.wb, ranyS, rlit "|", rwsS, ropt (rlit "ba"), rlit "sh", RE.wb],
   "high", "Piping remote script to shell"),
  (rcat [RE.wb, rlit "wget", RE.wb, ranyS, rlit "|", rwsS, ropt (rlit "ba"), rlit "sh", RE.wb],
   "high", "Piping remote script to shell"),
  (rcat [RE.wb, rlit "curl", RE.wb, ranyS, rlit "|", rwsS, rlit "sudo", RE.wb],
   "critical", "Piping remote script to sudo"),
  (rcat [RE.wb, rlit "wget", RE.wb, ranyS, rlit "|", rwsS, rlit "sudo", RE.wb],
   "critical", "Piping remote script to sudo"),
  (RE.alt (rcat [RE.wb, rlit "git", rwsP, rlit "push", rwsP, ranyS, rlit "--force", RE.wb])
     (rcat [RE.wb, rlit "git", rwsP, rlit "push", rwsP, rlit "-f", RE.wb]),
   "high", "Force-pushing — can destroy remote history"),
  (rcat [RE.wb, rlit "git", rwsP, rlit "reset", rwsP, rlit "--hard", RE.wb],
   "high", "Hard reset — discards uncommitted changes"),
  (rcat [RE.wb, rlit "git", rwsP, rlit "clean", rwsP, ranyS, rlit "-f"],
   "medium", "Removing untracked files"),
  (rcat [RE.wb, rlit "crontab", rwsP, rlit "-r", RE.wb],
   "high", "Deleting all cron jobs"),
  (rcat [RE.wb, rlit "iptables", rwsP, rlit "-f", RE.wb],
   "high", "Flushing all firewall rules"),
  (rcat [RE.wb, rlit "ufw", rwsP, rlit "disable", RE.wb],
   "high", "Disabling firewall"),
  (rcat [RE.wb, rlit "docker", rwsP, rlit "system", rwsP, rlit "prune", RE.wb],
   "medium", "Removing unused Docker data"),
  (rcat [RE.wb, rlit "docker", rwsP, rlit "rm", RE.wb],
   "medium", "Removing Docker containers"),
  (rcat [RE.wb, rlit "docker", rwsP, rlit "rmi", RE.wb],
   "medium", "Removing Docker images"),
  (rcat [RE.wb, rlit "rsync", RE.wb, ranyS, rlit "--delete", RE.wb],
   "medium", "Syncing with file deletion at destination"),
  (RE.alt (rcat [RE.wb, rlit "export", rwsP, rlit "path", rwsS, rlit "=", rwsS, RE.eos])
     (rcat [RE.wb, rlit "export", rwsP, rlit "path", rwsS, rlit "=", rwsS,
            ropt (RE.cls (fun c => c = squoteC ∨ c = dquoteC)), rwsS,
            ropt (RE.cls (fun c => c = squoteC ∨ c = dquoteC)), rwsS, RE.eos]),
   "high", "Clearing PATH — will break the shell"),
  (rcat [RE.wb, rlit "unset", rwsP, rlit "path", RE.wb],
   "high", "Unsetting PATH — will break the shell"),
  (rcat [rlit ":()", rwsS, RE.ch lbraceC, rwsS, rlit ":", rwsS, rlit "|", rwsS, rlit ":",
         rwsS, rlit "&", rwsS, RE.ch rbraceC, rwsS, rlit ";", rwsS, rlit ":"],
   "critical", "Fork bomb"),
  (rcat [RE.wb, rlit "format", rwsP, RE.cls (fun c => 'a' ≤ c ∧ c ≤ 'z'), rlit ":"],
   "critical", "Disk format (Windows)"),
  (rcat [RE.wb, rlit "del", rwsP, rlit "/s", RE.wb],
   "high", "Recursive file deletion (Windows)"),
  (rcat [RE.wb, rlit "rd", rwsP, rlit "/s", RE.wb],
   "high", "Recursive directory removal (Windows)")]

/-- Rule loop of check_command: fire each rule whose pattern matches,
suppressing duplicates by reason, in rule-declaration order. -/
def checkRules : List (RE × String × String) → List Char → List String → List SafetyWarning
  | [], _, _ => []
  | (re, sev, reason) :: rest, cmd, seen =>
    if reSearch re cmd ∧ reason ∉ seen then
      ⟨sev, reason⟩ :: checkRules rest cmd (reason :: seen)
    else
      checkRules rest cmd seen

/-- check_command of safety.py: strip the command, match every rule
case-insensitively (via lower-casing), dedupe by reason. -/
def check_command (command : String) : List SafetyWarning :=
  checkRules _RULES ((pyStrip command.data).map asciiLower) []

/-- is_destructive of safety.py. -/
def is_destructive (command : String) : Bool :=
  !(check_command command).isEmpty

/-! ## shlex.split (POSIX mode, the fragment exercised by allowlist.py)

Python shlex.split tokenises on whitespace with single quotes (fully
literal), double quotes (backslash escapes the backslash and the double
quote, any other escaped character keeps its backslash), and backslash
escapes outside quotes.  An unterminated quote raises
ValueError("No closing quotation"); a trailing backslash raises
ValueError("No escaped character"). -/

/-- Tokeniser state: current partial token (none = between tokens). -/
def shlexFlush (cur : Option (List Char)) (acc : List (List Char)) : List (List Char) :=
  match cur with
  | none => acc
  | some t => acc ++ [t]

/-- The shlex state machine: second argument is the active quote character
if inside a quoted section. -/
def shlexRun : List Char → Option Char → Option (List Char) → List (List Char) →
    Except String (List (List Char))
  | [], none, cur, acc => .ok (shlexFlush cur acc)
  | [], some _, _, _ => .error "No closing quotation"
  | c :: rest, none, cur, acc =>
    if isPySpace c then
      shlexRun rest none none (shlexFlush cur acc)
    else if c = squoteC ∨ c = dquoteC then
      shlexRun rest (some c) (some (cur.getD [])) acc
    else if c = '\\' then
      match rest with
      | [] => .error "No escaped character"
      | e :: rest2 => shlexRun rest2 none (some (cur.getD [] ++ [e])) acc
    else
      shlexRun rest none (some (cur.getD [] ++ [c])) acc
  | c :: rest, some q, cur, acc =>
    if c = q then
      shlexRun rest none (some (cur.getD [])) acc
    else if q = dquoteC ∧ c = '\\' then
      match rest with
      | [] => .error "No escaped character"
      | e :: rest2 =>
        if e = dquoteC ∨ e = '\\' then
          shlexRun rest2 (some q) (some (cur.getD [] ++ [e])) acc
        else
          shlexRun rest2 (some q) (some (cur.getD [] ++ ['\\', e])) acc
    else
      shlexRun rest (some q) (some (cur.getD [] ++ [c])) acc

/-- shlex.split of the Python standard library (POSIX fragment). -/
def shlexSplit (s : String) : Except String (List String) :=
  match shlexRun s.data none none [] with
  | .error e => .error e
  | .ok toks => .ok (toks.map String.mk)

/-! ## allowlist.py -/

/-- The default builtin-safe prefixes of allowlist.py, in source order. -/
def _DEFAULT_SAFE_PREFIXES : List String := [
  "ls", "ll", "la", "exa", "eza", "tree", "find", "locate",
  "stat", "file", "wc", "du", "df",
  "cat", "head", "tail", "less", "more", "bat", "batcat",
  "grep", "rg", "ripgrep", "ag", "ack", "sed", "awk",
  "sort", "uniq", "cut", "tr", "diff", "comm", "jq", "yq",
  "pwd", "whoami", "id", "hostname", "uname", "uptime",
  "date", "cal", "env", "printenv", "echo", "printf",
  "which", "where", "type", "command",
  "top", "htop", "btop", "ps", "pgrep", "lsof", "free",
  "vmstat", "iostat", "nproc", "arch", "sw_vers",
  "ping", "dig", "nslookup", "host", "traceroute", "mtr",
  "ifconfig", "ip", "ss", "netstat", "curl", "wget", "httpie",
  "git status", "git log", "git diff", "git show", "git branch",
  "git tag", "git remote", "git stash list", "git shortlog",
  "git blame", "git ls-files", "git ls-tree",
  "brew list", "brew info", "brew search",
  "pip list", "pip show", "pip freeze",
  "npm list", "npm ls", "npm info", "npm outdated",
  "cargo --version", "rustc --version", "go version",
  "node --version", "python --version", "java -version",
  "docker ps", "docker images", "docker stats",
  "docker logs", "docker inspect", "docker version",
  "man", "tldr", "history"]

/-- ASCII lower-casing of a whole string (str.lower). -/
def pyLowerS (s : String) : String :=
  String.mk (s.data.map asciiLower)

/-- Python set insertion (set.add): a no-op when already a member. -/
def pyInsert (x : String) (l : List String) : List String :=
  if x ∈ l then l else l ++ [x]

/-- Python set.discard: removes every occurrence of the element. -/
def pyErase (x : String) (l : List String) : List String :=
  l.filter (fun y => y ≠ x)

/-- The three trust stores.  The module-level session set and the two
persisted JSON stores of allowlist.py are modelled by the finite sets they
hold (duplicate-free lists, compared by membership); loading and
whole-file rewriting are modelled as direct access (the file-content level
of loading is modelled separately below). -/
structure TrustStore where
  permanent : List String
  session : List String
  disabledBuiltins : List String
deriving DecidableEq, Repr

def TrustStore.empty : TrustStore := ⟨[], [], []⟩

/-- _normalize of allowlist.py: shlex-split the stripped command and keep
the first two tokens; an empty split falls back to the stripped command.
shlex.split can raise, and that exception escapes _normalize. -/
def _normalize (command : String) : Except String String :=
  match shlexSplit (pyStripS command) with
  | .error e => .error e
  | .ok [] => .ok (pyStripS command)
  | .ok (t :: ts) => .ok (String.intercalate " " ((t :: ts).take 2))

/-- _get_active_safe_prefixes: defaults minus the disabled set. -/
def _get_active_safe_prefixes (st : TrustStore) : List String :=
  _DEFAULT_SAFE_PREFIXES.filter (fun p => p ∉ st.disabledBuiltins)

/-- _is_builtin_safe: the lower-cased command equals an active prefix or
extends it by a space. -/
def _is_builtin_safe (command : String) (st : TrustStore) : Bool :=
  let cmdLower := pyLowerS command
  (_get_active_safe_prefixes st).any
    (fun p => cmdLower = p ∨ (p ++ " ").isPrefixOf cmdLower)

/-- _matches_allow_list over a set of entries. -/
def _matches_allow_list (command : String) (allowed : List String) : Bool :=
  let cmdLower := pyStripS (pyLowerS command)
  allowed.any
    (fun entry =>
      let entryLower := pyLowerS entry
      cmdLower = entryLower ∨ (entryLower ++ " ").isPrefixOf cmdLower)

/-- should_auto_execute of allowlist.py: builtin-safe, then session list,
then permanent list. -/
def should_auto_execute (command : String) (st : TrustStore) : Bool :=
  let cmdStripped := pyStripS command
  if _is_builtin_safe cmdStripped st then true
  else if _matches_allow_list cmdStripped st.session then true
  else if _matches_allow_list cmdStripped st.permanent then true
  else false

/-- add_to_session: normalize (which may raise) and insert into the
session set. -/
def add_to_session (command : String) (session : List String) :
    Except String (List String) :=
  match _normalize command with
  | .error e => .error e
  | .ok key => .ok (pyInsert key session)

/-- add_to_permanent: normalize (which may raise), add to the loaded
permanent set and persist it. -/
def add_to_permanent (command : String) (permanent : List String) :
    Except String (List String) :=
  match _normalize command with
  | .error e => .error e
  | .ok key => .ok (pyInsert key permanent)

/-- remove_from_permanent: discard the key if present, report whether a
removal happened. -/
def remove_from_permanent (command : String) (permanent : List String) :
    Except String (List String × Bool) :=
  match _normalize command with
  | .error e => .error e
  | .ok key =>
    if key ∈ permanent then .ok (pyErase key permanent, true)
    else .ok (permanent, false)

/-- A raising mutator leaves the module-level store exactly as it was:
this wrapper gives the state visible to the caller after the call,
together with the escaped exception if one was raised. -/
def add_to_permanent_run (command : String) (permanent : List String) :
    List String × Option String :=
  match add_to_permanent command permanent with
  | .ok p => (p, none)
  | .error e => (permanent, some e)

/-- Caller-visible result of add_to_session, as for
add_to_permanent_run. -/
def add_to_session_run (command : String) (session : List String) :
    List String × Option String :=
  match add_to_session command session with
  | .ok s => (s, none)
  | .error e => (session, some e)

/-- add_to_permanent followed by remove_from_permanent on the same
command, returning the final persisted permanent set. -/
def add_then_remove_permanent (command : String) (permanent : List String) :
    Except String (List String) :=
  match add_to_permanent command permanent with
  | .error e => .error e
  | .ok p1 =>
    match remove_from_permanent command p1 with
    | .error e => .error e
    | .ok (p2, _) => .ok p2

/-! ## The file level of the persisted stores

_load_user_allowed and _load_disabled_builtins read a JSON file.  The file
is modelled as missing, unreadable (exists but read_text raises OSError),
or a content string; json.loads is modelled by a small JSON parser (the
fragment without string escapes and non-integer numbers, which covers every
shape the analysis evaluates).  Python set(...) raises TypeError when an
element is unhashable (a JSON array or object). -/

inductive Json : Type
  | null : Json
  | bool (b : Bool) : Json
  | num (n : Int) : Json
  | str (s : String) : Json
  | arr (xs : List Json) : Json
  | obj (fields : List (String × Json)) : Json

mutual

/-- Structural equality test on JSON values. -/
def Json.beq : Json → Json → Bool
  | .null, .null => true
  | .bool a, .bool b => a = b
  | .num a, .num b => a = b
  | .str a, .str b => a = b
  | .arr xs, .arr ys => Json.beqList xs ys
  | .obj xs, .obj ys => Json.beqFields xs ys
  | _, _ => false

/-- Elementwise equality of JSON arrays. -/
def Json.beqList : List Json → List Json → Bool
  | [], [] => true
  | a :: as, b :: bs => Json.beq a b && Json.beqList as bs
  | _, _ => false

/-- Elementwise equality of JSON object fields. -/
def Json.beqFields : List (String × Json) → List (String × Json) → Bool
  | [], [] => true
  | (ka, va) :: as, (kb, vb) :: bs => ka = kb && Json.beq va vb && Json.beqFields as bs
  | _, _ => false

end

instance : BEq Json := ⟨Json.beq⟩

def isJsonWs (c : Char) : Bool :=
  c = ' ' ∨ c = '\t' ∨ c = '\n' ∨ c = '\r'

def jsonDigit (c : Char) : Bool := '0' ≤ c ∧ c ≤ '9'

/-- Parse a JSON string body (escape sequences unsupported: a backslash
makes the parse fail, which is conservative for the inputs considered). -/
def parseJsonStr : List Char → Option (String × List Char)
  | [] => none
  | c :: rest =>
    if c = dquoteC then some ("", rest)
    else if c = '\\' then none
    else match parseJsonStr rest with
    | none => none
    | some (s, r) => some (String.mk (c :: s.data), r)

def parseDigits : List Char → Nat → Option (Nat × List Char)
  | [], acc => some (acc, [])
  | c :: rest, acc =>
    if jsonDigit c then parseDigits rest (acc * 10 + (c.toNat - 48))
    else some (acc, c :: rest)

mutual

/-- Fuel-based recursive-descent JSON value parser. -/
def parseValue : Nat → List Char → Option (Json × List Char)
  | 0, _ => none
  | fuel + 1, s =>
    match s.dropWhile isJsonWs with
    | [] => none
    | c :: rest =>
      if c = 'n' then
        match rest with
        | 'u' :: 'l' :: 'l' :: r => some (.null, r)
        | _ => none
      else if c = 't' then
        match rest with
        | 'r' :: 'u' :: 'e' :: r => some (.bool true, r)
        | _ => none
      else if c = 'f' then
        match rest with
        | 'a' :: 'l' :: 's' :: 'e' :: r => some (.bool false, r)
        | _ => none
      else if c = dquoteC then
        match parseJsonStr rest with
        | none => none
        | some (str, r) => some (.str str, r)
      else if c = '[' then
        match (rest.dropWhile isJsonWs) with
        | ']' :: r => some (.arr [], r)
        | _ => parseArrItems fuel rest []
      else if c = lbraceC then
        match (rest.dropWhile isJsonWs) with
        | r0 =>
          if r0.head? = some rbraceC then some (.obj [], r0.tail)
          else parseObjItems fuel rest []
      else if c = '-' then
        match rest with
        | d :: r1 =>
          if jsonDigit d then
            match parseDigits (d :: r1) 0 with
            | none => none
            | some (n, r) => some (.num (-(n : Int)), r)
          else none
        | [] => none
      else if jsonDigit c then
        match parseDigits (c :: rest) 0 with
        | none => none
        | some (n, r) => some (.num (n : Int), r)
      else none

/-- Comma-separated array items up to the closing bracket. -/
def parseArrItems : Nat → List Char → List Json → Option (Json × List Char)
  | 0, _, _ => none
  | fuel + 1, s, acc =>
    match parseValue fuel s with
    | none => none
    | some (v, r) =>
      match r.dropWhile isJsonWs with
      | ',' :: r2 => parseArrItems fuel r2 (acc ++ [v])
      | ']' :: r2 => some (.arr (acc ++ [v]), r2)
      | _ => none

/-- Comma-separated key-value object items up to the closing brace. -/
def parseObjItems : Nat → List Char → List (String × Json) → Option (Json × List Char)
  | 0, _, _ => none
  | fuel + 1, s, acc =>
    match s.dropWhile isJsonWs with
    | c :: r0 =>
      if c = dquoteC then
        match parseJsonStr r0 with
        | none => none
        | some (k, r1) =>
          match r1.dropWhile isJsonWs with
          | ':' :: r2 =>
            match parseValue fuel r2 with
            | none => none
            | some (v, r3) =>
              match r3.dropWhile isJsonWs with
              | ',' :: r4 => parseObjItems fuel r4 (acc ++ [(k, v)])
              | r4 =>
                if r4.head? = some rbraceC then some (.obj (acc ++ [(k, v)]), r4.tail)
                else none
          | _ => none
      else none
    | [] => none

end

/-- json.loads: parse one value surrounded by whitespace. -/
def jsonLoads (s : String) : Option Json :=
  match parseValue (s.length + 1) s.data with
  | none => none
  | some (j, rest) => if rest.dropWhile isJsonWs = [] then some j else none

/-- JSON arrays and objects decode to Python lists and dicts, which are
unhashable and make set(...) raise TypeError. -/
def jsonUnhashable : Json → Bool
  | .arr _ => true
  | .obj _ => true
  | _ => false

/-- Python set(iterable) over decoded JSON values: raises TypeError on the
first unhashable element, otherwise collects the distinct values. -/
def pySetOfJson (xs : List Json) : Except String (List Json) :=
  if xs.any jsonUnhashable then .error "TypeError"
  else .ok (xs.foldl (fun acc x => if acc.contains x then acc else acc ++ [x]) [])

/-- The state of a persisted store file. -/
inductive FileState : Type
  | missing : FileState
  | unreadable : FileState
  | content (s : String) : FileState

/-- _load_user_allowed of allowlist.py at the file level.  A missing file
gives the empty set; JSONDecodeError and OSError are caught and degrade
to the empty set; any non-list JSON value degrades to the empty set; but
set(data) on a list is outside the try-clause protection for TypeError. -/
def _load_user_allowed : FileState → Except String (List Json)
  | .missing => .ok []
  | .unreadable => .ok []
  | .content s =>
    match jsonLoads s with
    | none => .ok []
    | some (.arr xs) => pySetOfJson xs
    | some _ => .ok []

/-- _load_disabled_builtins of allowlist.py: same shape as
_load_user_allowed over the disabled-builtins file. -/
def _load_disabled_builtins : FileState → Except String (List Json)
  | .missing => .ok []
  | .unreadable => .ok []
  | .content s =>
    match jsonLoads s with
    | none => .ok []
    | some (.arr xs) => pySetOfJson xs
    | some _ => .ok []

/-! ## orchestrator.py — data model and wave resolution -/

structure Step where
  id : Int
  command : String
  description : String := ""
  depends_on : List Int := []
  status : String := "pending"
  exit_code : Option Int := none
  duration_ms : Option Int := none
deriving DecidableEq, Repr

structure Plan where
  instruction : String
  steps : List Step
  ai_provider : String := ""
  process_id : String := ""
  status : String := "pending"
  total_duration_ms : Option Int := none
deriving DecidableEq, Repr

/-- A step is eligible for the next wave when every dependency id is in
the completed set. -/
def eligibleStep (completed : List Int) (s : Step) : Bool :=
  s.depends_on.all (fun d => d ∈ completed)

/-- The loop body of resolve_waves.  The Python loop runs at most
len(steps)+1 iterations (the fuel); the completed id set is modelled by a
list read through membership only.  An iteration whose eligible wave is
empty emits each remaining step as its own singleton wave and stops. -/
def resolveWavesLoop : Nat → List Int → List Step → List (List Step)
  | 0, _, _ => []
  | fuel + 1, completed, remaining =>
    if remaining.isEmpty then []
    else
      let wave := remaining.filter (eligibleStep completed)
      if wave.isEmpty then
        remaining.map (fun s => [s])
      else
        let completed2 := completed ++ wave.map (fun s => s.id)
        wave :: resolveWavesLoop fuel completed2
          (remaining.filter (fun s => !(decide (s.id ∈ completed2))))

/-- resolve_waves of orchestrator.py. -/
def resolve_waves (steps : List Step) : List (List Step) :=
  if steps.isEmpty then [] else resolveWavesLoop (steps.length + 1) [] steps

/-- A wave viewed as the set of ids of its steps. -/
def waveIds (wave : List Step) : Finset Int :=
  (wave.map (fun s => s.id)).toFinset

/-! ## The execution model

Child processes, audit-log writes, interactive prompts and transitions of
steps into the running state are recorded in an effect log; the module
state (trust stores) and the pending user input are threaded explicitly.
Exceptions escape as `Except.error`.  Exit codes of spawned commands come
from an oracle in `Env` (the outside world), and plugin pre-hooks are an
oracle rewriting function.  Steps executed in a parallel wave are recorded
in submission order (the real pool interleaves them nondeterministically;
every per-step outcome is unaffected). -/

structure Eff where
  prompts : List String
  spawned : List String
  logged : List String
  processLogs : List String
  ranSteps : List Int
deriving DecidableEq, Repr

def Eff.nil : Eff := ⟨[], [], [], [], []⟩

def Eff.app (a b : Eff) : Eff :=
  ⟨a.prompts ++ b.prompts, a.spawned ++ b.spawned, a.logged ++ b.logged,
   a.processLogs ++ b.processLogs, a.ranSteps ++ b.ranSteps⟩

structure WorldState where
  store : TrustStore
  inputs : List String
deriving DecidableEq, Repr

structure Env where
  run : String → Int
  preHook : String → String

def M (α : Type) : Type := WorldState → Except String α × WorldState × Eff

def mPure {α : Type} (a : α) : M α := fun s => (.ok a, s, Eff.nil)

def mBind {α β : Type} (m : M α) (f : α → M β) : M β := fun s =>
  match m s with
  | (.error e, s1, e1) => (.error e, s1, e1)
  | (.ok a, s1, e1) =>
    match f a s1 with
    | (r, s2, e2) => (r, s2, Eff.app e1 e2)

instance : Monad M where
  pure := mPure
  bind := mBind

def mRaise {α : Type} (e : String) : M α := fun s => (.error e, s, Eff.nil)

/-- Present an interactive prompt (recorded in the effect log). -/
def mPrompt (p : String) : M Unit := fun s => (.ok (), s, ⟨[p], [], [], [], []⟩)

/-- input(): consume the next line; none models EOFError or interrupt. -/
def mReadInput : M (Option String) := fun s =>
  match s.inputs with
  | [] => (.ok none, s, Eff.nil)
  | i :: rest => (.ok (some i), { s with inputs := rest }, Eff.nil)

/-- subprocess.run: spawn the command, yielding its exit code. -/
def mSpawn (env : Env) (cmd : String) : M Int :=
  fun s => (.ok (env.run cmd), s, ⟨[], [cmd], [], [], []⟩)

/-- log_command: append one line to the command audit log. -/
def mLog (cmd : String) : M Unit := fun s => (.ok (), s, ⟨[], [], [cmd], [], []⟩)

/-- log_process: append one line to the process audit log. -/
def mLogProcess (pid : String) : M Unit :=
  fun s => (.ok (), s, ⟨[], [], [], [pid], []⟩)

/-- A step entering status running. -/
def mRan (id : Int) : M Unit := fun s => (.ok (), s, ⟨[], [], [], [], [id]⟩)

def mGetStore : M TrustStore := fun s => (.ok s.store, s, Eff.nil)

def mSetStore (st : TrustStore) : M Unit :=
  fun s => (.ok (), { s with store := st }, Eff.nil)

/-! ## executor.py -/

/-- run_command of executor.py: spawn the shell command, report success as
exit code zero, append to the audit log.  Launch failures and timeouts are
part of the exit-code oracle (they also yield success = false). -/
def run_command (env : Env) (command : String) : M Bool := do
  let code ← mSpawn env command
  mLog command
  pure (code = 0)

/-- _prompt_with_options of executor.py: the y/a/s/N prompt.  The a and s
answers mutate the trust store before execution proceeds; add_to_permanent
and add_to_session may raise out of this function. -/
def _prompt_with_options (command : String) (hasWarnings : Bool) : M (Option String) := do
  mPrompt "Run? [y/a/s/N]"
  match ← mReadInput with
  | none => pure none
  | some raw =>
    let answer := pyStripLower raw
    if answer = "y" ∨ answer = "yes" then pure (some "y")
    else if answer = "a" then do
      let st ← mGetStore
      match add_to_permanent command st.permanent with
      | .error e => mRaise e
      | .ok p => do
        mSetStore { st with permanent := p }
        pure (some "a")
    else if answer = "s" then do
      let st ← mGetStore
      match add_to_session command st.session with
      | .error e => mRaise e
      | .ok sess => do
        mSetStore { st with session := sess }
        pure (some "s")
    else pure none

/-- preview_and_execute of executor.py.  Returns some true on success,
some false on failure, none when skipped (dry-run or cancelled).  The
printed preview and warning block are not tracked. -/
def preview_and_execute (env : Env) (command : String) (dryRun autoYes : Bool) :
    M (Option Bool) := do
  let warnings := check_command command
  if dryRun then pure none
  else do
    let st ← mGetStore
    if warnings.isEmpty ∧ (autoYes ∨ should_auto_execute command st) then do
      let r ← run_command env (env.preHook command)
      pure (some r)
    else if warnings.any (fun w => w.severity = "critical") then do
      mPrompt "Type execute to confirm:"
      match ← mReadInput with
      | none => pure none
      | some raw =>
        if pyStripLower raw = "execute" then do
          let r ← run_command env (env.preHook command)
          pure (some r)
        else pure none
    else do
      match ← _prompt_with_options command (!warnings.isEmpty) with
      | none => pure none
      | some _ => do
        let r ← run_command env (env.preHook command)
        pure (some r)

/-! ## orchestrator.py — step and plan execution -/

/-- _execute_step of orchestrator.py.  The step first enters running; a
step with warnings and without auto_yes goes through preview_and_execute
(whose cancel outcome marks the step skipped), everything else is run
directly.  Durations are not modelled (left as they were). -/
def _execute_step (env : Env) (step : Step) (autoYes : Bool) : M Step := do
  mRan step.id
  let warnings := check_command step.command
  if !warnings.isEmpty ∧ ¬ autoYes then do
    let r ← preview_and_execute env step.command false false
    match r with
    | some true => pure { step with status := "success", exit_code := some 0 }
    | some false => pure { step with status := "failed" }
    | none => pure { step with status := "skipped" }
  else do
    let code ← mSpawn env step.command
    mLog step.command
    pure { step with status := if code = 0 then "success" else "failed",
                     exit_code := some code }

/-- _execute_step_bg of orchestrator.py (a step in the worker pool). -/
def _execute_step_bg (env : Env) (step : Step) : M Step := do
  mRan step.id
  let code ← mSpawn env step.command
  mLog step.command
  pure { step with status := if code = 0 then "success" else "failed",
                   exit_code := some code }

/-- Run the prompting steps of a wave one at a time. -/
def execStepsSeq (env : Env) (autoYes : Bool) : List Step → M (List Step)
  | [] => pure []
  | s :: rest => do
    let s2 ← _execute_step env s autoYes
    let rest2 ← execStepsSeq env autoYes rest
    pure (s2 :: rest2)

/-- Run the safe batch of a wave (pool submission order). -/
def execStepsBg (env : Env) : List Step → M (List Step)
  | [] => pure []
  | s :: rest => do
    let s2 ← _execute_step_bg env s
    let rest2 ← execStepsBg env rest
    pure (s2 :: rest2)

/-- _execute_wave_parallel of orchestrator.py: split the wave into steps
needing a prompt (warnings, or no auto approval) and the safe batch; run
the former sequentially, the latter in the pool; extend the failed set. -/
def _execute_wave_parallel (env : Env) (steps : List Step) (autoYes : Bool)
    (failed : List Int) : M (List Step × List Int) := do
  let st ← mGetStore
  let needsPrompt := steps.filter
    (fun s => !(check_command s.command).isEmpty ∨
      (¬ autoYes ∧ ¬ should_auto_execute s.command st))
  let safeBatch := steps.filter
    (fun s => ¬ (!(check_command s.command).isEmpty ∨
      (¬ autoYes ∧ ¬ should_auto_execute s.command st)))
  let done1 ← execStepsSeq env autoYes needsPrompt
  let done2 ← execStepsBg env safeBatch
  let failed2 := failed ++
    ((done1 ++ done2).filter (fun s => s.status = "failed")).map (fun s => s.id)
  pure (done1 ++ done2, failed2)

/-- Write an executed step back into the plan step list (by id; plans with
distinct step ids match the in-place object mutation of the source). -/
def updateStepTo (planSteps : List Step) (s2 : Step) : List Step :=
  planSteps.map (fun t => if t.id = s2.id then s2 else t)

/-- The wave loop of execute_plan: mark skipped every step with an already
failed dependency, then run the runnable remainder. -/
def runWaves (env : Env) (autoYes : Bool) :
    List (List Step) → List Step → List Int → M (List Step × List Int)
  | [], planSteps, failed => pure (planSteps, failed)
  | wave :: rest, planSteps, failed =>
    let skippedSteps := wave.filter (fun s => s.depends_on.any (fun d => d ∈ failed))
    let runnable := wave.filter (fun s => !(s.depends_on.any (fun d => d ∈ failed)))
    let planSteps2 := skippedSteps.foldl
      (fun acc s => updateStepTo acc { s with status := "skipped" }) planSteps
    match runnable with
    | [] => runWaves env autoYes rest planSteps2 failed
    | [single] => do
      let s2 ← _execute_step env single autoYes
      let failed2 := if s2.status = "failed" then failed ++ [s2.id] else failed
      runWaves env autoYes rest (updateStepTo planSteps2 s2) failed2
    | multiple => do
      let ( steps2, failed2) ← _execute_wave_parallel env multiple autoYes failed
      runWaves env autoYes rest (steps2.foldl updateStepTo planSteps2) failed2

/-- execute_plan of orchestrator.py.  Dry run: the plan is displayed and
returned with status dry_run, nothing else happens.  Otherwise a plan
confirmation is asked unless auto_yes, the waves run, the final status is
derived and the process log is appended.  Wall-clock durations are not
modelled. -/
def execute_plan (env : Env) (plan : Plan) (dryRun autoYes : Bool) : M Plan := do
  if dryRun then pure { plan with status := "dry_run" }
  else do
    let proceed ←
      if autoYes then pure true
      else do
        mPrompt "Execute plan? [y/N]"
        match ← mReadInput with
        | none => pure false
        | some raw =>
          pure (decide (pyStripLower raw = "y" ∨ pyStripLower raw = "yes"))
    if ¬ proceed then pure { plan with status := "cancelled" }
    else do
      let waves := resolve_waves plan.steps
      let (finalSteps, _) ← runWaves env autoYes waves plan.steps []
      let failedC := (finalSteps.filter (fun s => s.status = "failed")).length
      let skippedC := (finalSteps.filter (fun s => s.status = "skipped")).length
      let succeeded := (finalSteps.filter (fun s => s.status = "success")).length
      let status :=
        if failedC = 0 ∧ skippedC = 0 then "completed"
        else if succeeded = 0 then "failed"
        else "partial"
      mLogProcess plan.process_id
      pure { plan with steps := finalSteps, status := status }

/-! ## Concrete scenario constants used by the theorems below -/

/-- Oracle world in which the command of step A fails and every other
command succeeds. -/
def c1Env : Env := ⟨fun c => if c = "cmda" then 1 else 0, id⟩

/-- Steps A (no dependencies), B (depends on A), C (depends on B); none of
the commands carries a safety warning. -/
def c1Plan : Plan :=
  { instruction := "demo",
    process_id := "p1",
    steps := [⟨1, "cmda", "", [], "pending", none, none⟩,
              ⟨2, "cmdb", "", [1], "pending", none, none⟩,
              ⟨3, "cmdc", "", [2], "pending", none, none⟩] }

def c1Run : Except String Plan × WorldState × Eff :=
  (execute_plan c1Env c1Plan false true) ⟨TrustStore.empty, []⟩

/-- Oracle world in which every spawned command succeeds. -/
def c2Env : Env := ⟨fun _ => 0, id⟩

/-- A single-step plan whose command carries a critical safety warning
(mkfs, Filesystem format). -/
def c2Plan : Plan :=
  { instruction := "format",
    process_id := "p2",
    steps := [⟨1, "mkfs x", "", [], "pending", none, none⟩] }

def c2PlanRun : Except String Plan × WorldState × Eff :=
  (execute_plan c2Env c2Plan false true) ⟨TrustStore.empty, []⟩

def c2SingleRun : Except String (Option Bool) × WorldState × Eff :=
  (preview_and_execute c2Env "mkfs x" false true) ⟨TrustStore.empty, ["y"]⟩

/-- Oracle world for the C4 scenario: every command succeeds. -/
def c4Env : Env := ⟨fun _ => 0, id⟩

/-- A one-step list whose only step has an unmet dependency, so that the
first resolution pass stalls. -/
def c6StuckSteps : List Step := [⟨1, "a", "", [99], "pending", none, none⟩]

/-- A well-formed two-step chain. -/
def c6GoodSteps : List Step :=
  [⟨1, "a", "", [], "pending", none, none⟩, ⟨2, "b", "", [1], "pending", none, none⟩]

/-- First step of a cyclic two-step plan. -/
def c7StepA : Step := ⟨1, "a", "", [2], "pending", none, none⟩

/-- Second step of a cyclic two-step plan. -/
def c7StepB : Step := ⟨2, "b", "", [1], "pending", none, none⟩

/-- A command with an unmatched double quote. -/
def c10Cmd : String := String.mk ('e' :: 'c' :: 'h' :: 'o' :: ' ' :: dquoteC :: ['x'])

/-! # Theorems -/

/-! ## C1 — transitivity of dependency-failure cascades -/

/-- C1: dependency failure does NOT cascade transitively in execute_plan.
With A failing, B is skipped, but C (which depends only on B) is executed:
it enters running, its process is spawned, and it finishes success — the
skipped step B is never added to the failed-id set, so C's dependency
check passes.  The claim says B and C both end skipped and never run. -/
theorem execute_plan_cascade_not_transitive :
    c1Run.1.map (fun p => (p.status, p.steps.map (fun s => (s.id, s.status)))) =
      .ok ("partial", [(1, "failed"), (2, "skipped"), (3, "success")]) ∧
    c1Run.2.2.ranSteps = [1, 3] ∧
    c1Run.2.2.spawned = ["cmda", "cmdc"] ∧
    c1Run.2.2.prompts = [] := by
  refine ⟨?_, ?_, ?_, ?_⟩ <;> rfl

/-! ## C2 — the force-confirm gate for critical warnings -/

/-- C2: autoYes DOES bypass the critical force-confirm gate for steps
inside a plan.  The command mkfs x carries a critical warning; single
command execution under autoYes still demands the literal word execute
(typing y cancels, nothing is spawned), but execute_plan with auto_yes
runs the very same command directly: no prompt is presented, no input is
consumed, and the process is spawned. -/
theorem plan_auto_yes_bypasses_critical_confirm :
    (check_command "mkfs x").any (fun w => w.severity = "critical") = true ∧
    c2SingleRun = (.ok none, ⟨TrustStore.empty, []⟩,
      ⟨["Type execute to confirm:"], [], [], [], []⟩) ∧
    c2PlanRun.2.2.prompts = [] ∧
    c2PlanRun.2.2.spawned = ["mkfs x"] ∧
    c2PlanRun.1.map (fun p => p.steps.map (fun s => s.status)) = .ok ["success"] := by
  refine ⟨?_, ?_, ?_, ?_, ?_⟩ <;> rfl

/-! ## C5 — loading a corrupt allow-list file -/

/-- C5: loading does NOT always degrade to the empty set.  The file
content [[]] is valid JSON, so json.loads succeeds with a list; the
try-clause only catches JSONDecodeError and OSError, and set(data) then
raises TypeError on the unhashable inner list — for both loaders.  The
benign cases (missing file, malformed JSON, non-list JSON) do degrade. -/
theorem load_user_allowed_raises_on_nested_list :
    _load_user_allowed (.content "[[]]") = .error "TypeError" ∧
    _load_disabled_builtins (.content "[[]]") = .error "TypeError" ∧
    _load_user_allowed .missing = .ok [] ∧
    _load_user_allowed .unreadable = .ok [] ∧
    _load_user_allowed (.content "not json") = .ok [] ∧
    _load_user_allowed (.content "42") = .ok [] := by
  refine ⟨?_, ?_, ?_, ?_, ?_, ?_⟩ <;> rfl

/-! ## C8 — add/remove round trip on the permanent list -/

/-- C8 counterexample: when the normalized key is already present, adding
is a set no-op but removing deletes it, so the round trip loses the key
instead of restoring the prior state. -/
theorem add_remove_roundtrip_fails_when_present :
    add_then_remove_permanent "git commit" ["git commit"] = .ok [] ∧
    ¬ (([] : List String) = ["git commit"]) := by
  exact ⟨rfl, by simp⟩

/-- C8 amended: if the normalized key of the command is not already in
the persisted permanent set, add_to_permanent followed by
remove_from_permanent restores the set exactly. -/
theorem add_remove_roundtrip_when_absent (cmd key : String) (perm : List String)
    (hnorm : _normalize cmd = .ok key) (habs : key ∉ perm) :
    add_then_remove_permanent cmd perm = .ok perm := by
  unfold add_then_remove_permanent add_to_permanent remove_from_permanent
  rw [hnorm]
  simp only [pyInsert, habs, if_false, pyErase]
  have hmem : key ∈ perm ++ [key] := by simp
  simp only [hmem, if_true]
  have h1 : List.filter (fun y => decide (y ≠ key)) [key] = [] := by simp
  have hperm : perm.filter (fun y => decide (y ≠ key)) = perm :=
    List.filter_eq_self.mpr (fun a ha => by
      simp only [ne_eq, decide_eq_true_eq]
      exact fun h => habs (h ▸ ha))
  rw [List.filter_append, h1, List.append_nil, hperm]

/-- Witness for the amended C8 round trip at a concrete command. -/
theorem add_remove_roundtrip_when_absent_witness :
    add_then_remove_permanent "ls -la" ["git commit"] = .ok ["git commit"] :=
  add_remove_roundtrip_when_absent "ls -la" "ls -la" ["git commit"] (by rfl)
    (by simp)

/-! ## C10 — trust-store mutators raise on unsplittable commands -/

/-- C10: _normalize calls shlex.split, which raises ValueError (No closing
quotation) on an unmatched quote; add_to_permanent and add_to_session
propagate the exception to the caller, and the caller-visible permanent
and session sets remain exactly what they were. -/
theorem add_mutators_raise_on_unmatched_quote (perm session : List String) :
    _normalize c10Cmd = .error "No closing quotation" ∧
    add_to_permanent_run c10Cmd perm = (perm, some "No closing quotation") ∧
    add_to_session_run c10Cmd session = (session, some "No closing quotation") := by
  have hn : _normalize c10Cmd = .error "No closing quotation" := by rfl
  refine ⟨hn, ?_, ?_⟩
  · unfold add_to_permanent_run add_to_permanent
    rw [hn]
  · unfold add_to_session_run add_to_session
    rw [hn]

/-! ## C9 — dry-run frame property -/

/-- C9: under dry-run nothing is spawned, logged or prompted.
preview_and_execute returns None with the world unchanged and an empty
effect log (warnings are computed and printed before the dry-run return,
but no process and no audit entry exist); execute_plan returns the plan
with status dry_run, with the same steps object — every step keeps its
status, exit code and duration — and an empty effect log. -/
theorem dry_run_no_spawn_no_log :
    (∀ (env : Env) (command : String) (autoYes : Bool) (s : WorldState),
      (preview_and_execute env command true autoYes) s = (.ok none, s, Eff.nil)) ∧
    (∀ (env : Env) (plan : Plan) (autoYes : Bool) (s : WorldState),
      (execute_plan env plan true autoYes) s =
        (.ok { plan with status := "dry_run" }, s, Eff.nil) ∧
      ({ plan with status := "dry_run" } : Plan).steps = plan.steps) :=
  ⟨fun _ _ _ _ => rfl, fun _ _ _ _ => ⟨rfl, rfl⟩⟩

/-! ## C3 and C4 — warnings force the prompt path -/

theorem M_bind_def {α β : Type} (m : M α) (f : α → M β) : (m >>= f) = mBind m f := rfl

theorem M_pure_def {α : Type} (a : α) : (pure a : M α) = mPure a := rfl

theorem mGetStore_bind {β : Type} (f : TrustStore → M β) (s : WorldState) :
    (mBind mGetStore f) s = f s.store s := rfl

/-- Composing any prompt-free continuation after the y/a/s/N prompt yields
exactly one presented prompt, whatever the input stream and store. -/
theorem prompt_options_bind_prompts {β : Type} (cmd : String) (hwB : Bool)
    (k : Option String → M β) (hk : ∀ a st, ((k a) st).2.2.prompts = [])
    (s : WorldState) :
    ((mBind (_prompt_with_options cmd hwB) k) s).2.2.prompts = ["Run? [y/a/s/N]"] := by
  unfold _prompt_with_options
  simp only [M_bind_def, M_pure_def]
  cases hin : s.inputs with
  | nil =>
    simp [mBind, mPure, mPrompt, mReadInput, hin, Eff.app, Eff.nil, hk]
  | cons i rest =>
    by_cases hy : pyStripLower i = "y" ∨ pyStripLower i = "yes"
    · simp [mBind, mPure, mPrompt, mReadInput, hin, hy, Eff.app, Eff.nil, hk]
    · by_cases ha : pyStripLower i = "a"
      · rcases hp : add_to_permanent cmd s.store.permanent with e | p <;>
          simp [mBind, mPure, mPrompt, mReadInput, mGetStore, mSetStore, mRaise,
            hin, hy, ha, hp, Eff.app, Eff.nil, hk]
      · by_cases hs : pyStripLower i = "s"
        · rcases hp : add_to_session cmd s.store.session with e | sess <;>
            simp [mBind, mPure, mPrompt, mReadInput, mGetStore, mSetStore, mRaise,
              hin, hy, ha, hs, hp, Eff.app, Eff.nil, hk]
        · simp [mBind, mPure, mPrompt, mReadInput, hin, hy, ha, hs, Eff.app,
            Eff.nil, hk]

/-- Any command with a nonempty, non-critical warning list is never
auto-executed: preview_and_execute presents exactly the y/a/s/N options
prompt, whatever the autoYes flag, the store and the user input. -/
theorem preview_warned_noncritical_prompts (env : Env) (cmd : String)
    (autoYes : Bool) (s : WorldState)
    (hw : (check_command cmd).isEmpty = false)
    (hc : (check_command cmd).any (fun w => w.severity = "critical") = false) :
    ((preview_and_execute env cmd false autoYes) s).2.2.prompts = ["Run? [y/a/s/N]"] := by
  unfold preview_and_execute
  simp only [M_bind_def, M_pure_def, Bool.false_eq_true, if_false, mGetStore_bind]
  rw [if_neg (by simp [hw]), if_neg (by simp [hc])]
  refine prompt_options_bind_prompts cmd _ _ (fun a st => ?_) s
  cases a <;> rfl

/-- C3 counterexample: check_command on rm -rf /tmp/cache returns two
warnings, not exactly one — the generic rm rule (medium, File deletion)
fires alongside the recursive-forced-delete rule, and deduplication is by
reason, which differs. -/
theorem check_command_rm_rf_tmp_cache_not_single :
    (check_command "rm -rf /tmp/cache").length = 2 := by rfl

/-- C3 amended: rm -rf /tmp/cache yields exactly the two warnings high
(Recursive forced delete) and medium (File deletion), in rule-declaration
order; and since the warning list is nonempty and non-critical, the
command is never auto-executed — preview_and_execute always goes through
the y/a/s/N prompt path, whatever autoYes, the trust store, or the
input. -/
theorem check_command_rm_rf_tmp_cache :
    check_command "rm -rf /tmp/cache" =
      [⟨"high", "Recursive forced delete"⟩, ⟨"medium", "File deletion"⟩] ∧
    ∀ (env : Env) (autoYes : Bool) (s : WorldState),
      ((preview_and_execute env "rm -rf /tmp/cache" false autoYes) s).2.2.prompts =
        ["Run? [y/a/s/N]"] :=
  ⟨rfl, fun env autoYes s =>
    preview_warned_noncritical_prompts env "rm -rf /tmp/cache" autoYes s rfl rfl⟩

/-- C4 counterexample: with autoYes set and the command rm x, whose only
warning is medium (File deletion) — all non-critical — preview_and_execute
still presents the interactive y/a/s/N prompt instead of proceeding
straight to execution. -/
theorem auto_yes_medium_warning_still_prompts_concrete :
    check_command "rm x" = [⟨"medium", "File deletion"⟩] ∧
    ((preview_and_execute c4Env "rm x" false true) ⟨TrustStore.empty, []⟩).2.2.prompts =
      ["Run? [y/a/s/N]"] := by
  exact ⟨rfl, rfl⟩

/-- C4 amended: autoYes bypasses confirmation only for commands with no
warnings at all.  For every command whose warning list is nonempty and
contains no critical warning, preview_and_execute under autoYes still
presents the y/a/s/N options prompt. -/
theorem auto_yes_noncritical_still_prompts (env : Env) (cmd : String)
    (s : WorldState)
    (hw : (check_command cmd).isEmpty = false)
    (hc : (check_command cmd).any (fun w => w.severity = "critical") = false) :
    ((preview_and_execute env cmd false true) s).2.2.prompts = ["Run? [y/a/s/N]"] :=
  preview_warned_noncritical_prompts env cmd true s hw hc

/-- Witness for the amended C4 statement at the concrete command sudo ls
(one medium warning) with a pending yes input. -/
theorem auto_yes_noncritical_still_prompts_witness :
    (check_command "sudo ls").isEmpty = false ∧
    (check_command "sudo ls").any (fun w => w.severity = "critical") = false ∧
    ((preview_and_execute c4Env "sudo ls" false true) ⟨TrustStore.empty, ["y"]⟩).2.2.prompts =
      ["Run? [y/a/s/N]"] :=
  ⟨rfl, rfl, auto_yes_noncritical_still_prompts c4Env "sudo ls"
    ⟨TrustStore.empty, ["y"]⟩ rfl rfl⟩

/-! ## C6 — bounded termination of resolve_waves -/

theorem length_filter_lt_of_mem_false {α : Type} (p : α → Bool) :
    ∀ (l : List α) (a : α), a ∈ l → p a = false → (l.filter p).length < l.length := by
  intro l
  induction l with
  | nil => intro a ha; cases ha
  | cons x xs ih =>
    intro a ha hpa
    rcases List.mem_cons.mp ha with rfl | hmem
    · rw [List.filter_cons, hpa]
      exact Nat.lt_succ_of_le (List.length_filter_le _ _)
    · rw [List.filter_cons]
      by_cases hx : p x
      · simp only [hx, if_true, List.length_cons]
        exact Nat.succ_lt_succ (ih a hmem hpa)
      · simp only [hx, if_false]
        exact Nat.lt_succ_of_lt (ih a hmem hpa)

/-- Any fuel larger than the number of remaining steps computes the same
wave list: each productive pass removes at least one step, so the Python
bound of len(steps)+1 iterations is never exhausted. -/
theorem resolveWavesLoop_fuel_irrel :
    ∀ (f1 f2 : Nat) (completed : List Int) (remaining : List Step),
      remaining.length < f1 → remaining.length < f2 →
      resolveWavesLoop f1 completed remaining = resolveWavesLoop f2 completed remaining := by
  intro f1
  induction f1 with
  | zero => intro f2 c r h1 _; exact absurd h1 (Nat.not_lt_zero _)
  | succ n ih =>
    intro f2 c r h1 h2
    cases f2 with
    | zero => exact absurd h2 (Nat.not_lt_zero _)
    | succ m =>
      simp only [resolveWavesLoop]
      by_cases hr : r.isEmpty
      · simp [hr]
      · simp only [hr, Bool.false_eq_true, if_false]
        by_cases hw : (r.filter (eligibleStep c)).isEmpty
        · simp [hw]
        · simp only [hw, Bool.false_eq_true, if_false]
          have hwne : r.filter (eligibleStep c) ≠ [] := by
            intro h
            rw [h] at hw
            exact hw rfl
          obtain ⟨s, hs⟩ := List.exists_mem_of_ne_nil _ hwne
          have hsr : s ∈ r := (List.mem_filter.mp hs).1
          have hsid : s.id ∈ c ++ (r.filter (eligibleStep c)).map (fun t => t.id) :=
            List.mem_append_right _ (List.mem_map.mpr ⟨s, hs, rfl⟩)
          have hlt := length_filter_lt_of_mem_false
            (fun t : Step =>
              !(decide (t.id ∈ c ++ (r.filter (eligibleStep c)).map (fun u => u.id))))
            r s hsr (by simp [hsid])
          congr 1
          exact ih m _ _
            (Nat.lt_of_lt_of_le hlt (Nat.lt_succ_iff.mp h1))
            (Nat.lt_of_lt_of_le hlt (Nat.lt_succ_iff.mp h2))

/-- C6: resolve_waves terminates on every input in bounded time, and any
pass that selects no eligible step while steps remain emits each remaining
step as its own singleton wave, in their current (input) order, and stops.
The first conjunct states soundness of the iteration bound: any fuel of at
least len(steps)+1 passes yields the very result of resolve_waves. -/
theorem resolve_waves_bounded_with_singleton_fallback :
    ∀ steps : List Step,
      (∀ fuel : Nat, steps.length + 1 ≤ fuel →
        resolveWavesLoop fuel [] steps = resolve_waves steps) ∧
      (∀ (completed : List Int) (remaining : List Step) (fuel : Nat),
        remaining ≠ [] →
        remaining.filter (eligibleStep completed) = [] →
        0 < fuel →
        resolveWavesLoop fuel completed remaining = remaining.map (fun s => [s])) := by
  intro steps
  constructor
  · intro fuel hf
    unfold resolve_waves
    by_cases hs : steps.isEmpty
    · have hnil : steps = [] := by
        cases steps with
        | nil => rfl
        | cons a l => simp [List.isEmpty] at hs
      subst hnil
      cases fuel <;> rfl
    · simp only [hs, Bool.false_eq_true, if_false]
      exact resolveWavesLoop_fuel_irrel fuel (steps.length + 1) [] steps hf
        (Nat.lt_succ_self _)
  · intro c r fuel hne hfil hpos
    cases fuel with
    | zero => exact absurd hpos (by simp)
    | succ n =>
      have hre : r.isEmpty = false := by
        cases r with
        | nil => exact absurd rfl hne
        | cons a l => rfl
      simp [resolveWavesLoop, hre, hfil]

/-- Witness for C6 at concrete inputs: extra fuel changes nothing on a
well-formed two-step chain, and a stalled pass puts each remaining step in
its own singleton wave. -/
theorem resolve_waves_bounded_with_singleton_fallback_witness :
    resolveWavesLoop 7 [] c6GoodSteps = resolve_waves c6GoodSteps ∧
    resolveWavesLoop 1 [] c6StuckSteps = c6StuckSteps.map (fun s => [s]) :=
  ⟨(resolve_waves_bounded_with_singleton_fallback c6GoodSteps).1 7 (by decide),
   (resolve_waves_bounded_with_singleton_fallback c6StuckSteps).2 [] c6StuckSteps 1
     (by decide) (by decide) (by decide)⟩

/-! ## C7 — permutation invariance of the waves as id sets -/

/-- The wave lists computed at membership-equal completed sets and at
permuted remainders agree wave-by-wave once each wave is viewed as its id
set, up to the order of the singleton fallback waves. -/
theorem resolveWavesLoop_perm (fuel : Nat) :
    ∀ (c1 c2 : List Int) (r1 r2 : List Step),
      (∀ x : Int, x ∈ c1 ↔ x ∈ c2) → r1.Perm r2 →
      ((resolveWavesLoop fuel c1 r1).map waveIds).Perm
        ((resolveWavesLoop fuel c2 r2).map waveIds) := by
  induction fuel with
  | zero => intro c1 c2 r1 r2 _ _; simp [resolveWavesLoop]
  | succ n ih =>
    intro c1 c2 r1 r2 hc hr
    by_cases h1 : r1 = []
    · subst h1
      have h2 : r2 = [] := hr.symm.eq_nil
      subst h2
      exact List.Perm.refl _
    · have h2 : r2 ≠ [] := fun h => h1 (h ▸ hr).eq_nil
      have he1 : r1.isEmpty = false := by
        cases r1 with
        | nil => exact absurd rfl h1
        | cons a l => rfl
      have he2 : r2.isEmpty = false := by
        cases r2 with
        | nil => exact absurd rfl h2
        | cons a l => rfl
      have hel : eligibleStep c1 = eligibleStep c2 := by
        funext s
        unfold eligibleStep
        have hfd : (fun d : Int => decide (d ∈ c1)) = fun d => decide (d ∈ c2) :=
          funext fun d => decide_eq_decide.mpr (hc d)
        rw [hfd]
      have hwperm : (r1.filter (eligibleStep c1)).Perm (r2.filter (eligibleStep c2)) := by
        rw [hel]
        exact hr.filter _
      simp only [resolveWavesLoop, he1, he2, Bool.false_eq_true, if_false]
      by_cases hw1 : r1.filter (eligibleStep c1) = []
      · have hw2 : r2.filter (eligibleStep c2) = [] := by
          rw [hw1] at hwperm
          exact hwperm.symm.eq_nil
        simp only [hw1, hw2, List.isEmpty_nil, if_true, List.map_map]
        exact hr.map _
      · have hw2 : r2.filter (eligibleStep c2) ≠ [] := by
          intro h
          rw [h] at hwperm
          exact hw1 hwperm.eq_nil
        have hfw1 : (r1.filter (eligibleStep c1)).isEmpty = false := by
          cases hfe : r1.filter (eligibleStep c1) with
          | nil => exact absurd hfe hw1
          | cons a l => rfl
        have hfw2 : (r2.filter (eligibleStep c2)).isEmpty = false := by
          cases hfe : r2.filter (eligibleStep c2) with
          | nil => exact absurd hfe hw2
          | cons a l => rfl
        simp only [hfw1, hfw2, Bool.false_eq_true, if_false, List.map_cons]
        have hcN : ∀ x : Int,
            x ∈ c1 ++ (r1.filter (eligibleStep c1)).map (fun s => s.id) ↔
            x ∈ c2 ++ (r2.filter (eligibleStep c2)).map (fun s => s.id) := by
          intro x
          simp only [List.mem_append]
          exact or_congr (hc x) (hwperm.map (fun s => s.id)).mem_iff
        have hpN : (fun s : Step =>
              !(decide (s.id ∈ c1 ++ (r1.filter (eligibleStep c1)).map (fun u => u.id)))) =
            (fun s : Step =>
              !(decide (s.id ∈ c2 ++ (r2.filter (eligibleStep c2)).map (fun u => u.id)))) :=
          funext fun s => by rw [decide_eq_decide.mpr (hcN s.id)]
        have hrN : (r1.filter (fun s =>
              !(decide (s.id ∈ c1 ++ (r1.filter (eligibleStep c1)).map (fun u => u.id))))).Perm
            (r2.filter (fun s =>
              !(decide (s.id ∈ c2 ++ (r2.filter (eligibleStep c2)).map (fun u => u.id))))) := by
          rw [hpN]
          exact hr.filter _
        have hhead : waveIds (r1.filter (eligibleStep c1)) =
            waveIds (r2.filter (eligibleStep c2)) :=
          List.toFinset_eq_of_perm _ _ (hwperm.map (fun s => s.id))
        rw [hhead]
        exact (ih _ _ _ _ hcN hrN).cons _

/-- C7: resolve_waves is invariant under permutations of the input step
list, with every wave viewed as the set of its step ids: the resulting
collections of id sets are permutations of each other (identical as sets
of waves).  Non-fallback waves appear identically in order; only the
singleton fallback waves keep the (permuted) input order. -/
theorem resolve_waves_perm_invariant (l1 l2 : List Step) (h : l1.Perm l2) :
    ((resolve_waves l1).map waveIds).Perm ((resolve_waves l2).map waveIds) := by
  unfold resolve_waves
  by_cases h1 : l1 = []
  · subst h1
    have h2 : l2 = [] := h.symm.eq_nil
    subst h2
    exact List.Perm.refl _
  · have h2 : l2 ≠ [] := fun hx => h1 (hx ▸ h).eq_nil
    have he1 : l1.isEmpty = false := by
      cases l1 with
      | nil => exact absurd rfl h1
      | cons a l => rfl
    have he2 : l2.isEmpty = false := by
      cases l2 with
      | nil => exact absurd rfl h2
      | cons a l => rfl
    simp only [he1, he2, Bool.false_eq_true, if_false]
    rw [h.length_eq]
    exact resolveWavesLoop_perm (l2.length + 1) [] [] l1 l2 (fun _ => Iff.rfl) h

/-- Witness for C7 on a concrete cyclic two-step list and its swap. -/
theorem resolve_waves_perm_invariant_witness :
    ([c7StepA, c7StepB].Perm [c7StepB, c7StepA]) ∧
    ((resolve_waves [c7StepA, c7StepB]).map waveIds).Perm
      ((resolve_waves [c7StepB, c7StepA]).map waveIds) :=
  ⟨by decide, resolve_waves_perm_invariant _ _ (by decide)⟩

end Termai


